import Mathlib

/-!
Verification development for the course-scheduling optimizer
(`src/app/scheduling.py`, class `SchedulingOptimizer`).

The Python module builds two mixed-integer programs and hands them to an
external backend (CBC via `pywraplp`).  The backend is modelled here as an
oracle: a status code together with the variable assignment the backend
returned.  Whenever the backend reports `OPTIMAL`, the returned assignment
satisfies every constraint that was added to the model; theorems about the
assignment solve take that contract as a hypothesis
(`assignFeasible ... = true`).  Everything else — the slot catalog, the
Kemeny objective construction, the row filtering, the popularity rescaling,
the satisfaction formula, the constraint bounds, and the result-record
assembly — is translated directly from the source.

Numeric conventions: Python floats are modelled as `ℚ` (all values produced
by the module are ratios of small integers), `float('inf')` as
`(⊤ : WithTop ℚ)`, and a Python `IndexError` (reachable in
`get_slots_popularity`, see below) as `Option.none`.
-/

namespace SchedulingOptimizer

/-- Status codes of the `pywraplp` backend, as compared against
`pywraplp.Solver.OPTIMAL` in the source. -/
inductive SolveStatus where
  | OPTIMAL
  | FEASIBLE
  | INFEASIBLE
  | UNBOUNDED
  | ABNORMAL
  | NOT_SOLVED
deriving DecidableEq

/-- Oracle for the Kemeny ILP solve inside `rankaggr_lp`: the status the
backend reported and the boolean value it assigned to each pairwise
precedence variable `x[i, j]`. -/
structure KemenyOracle where
  status : SolveStatus
  sol : ℕ → ℕ → Bool

/-- One row of `self.slot_times`: ordinal, code, display label, day pattern,
start time, end time. -/
structure SlotInfo where
  num : ℕ
  code : String
  label : String
  days : String
  startT : String
  endT : String
deriving DecidableEq

/-- The fixed ten-slot catalog from `SchedulingOptimizer.__init__`. -/
def slot_times : List SlotInfo :=
  [⟨1, "s1", "MWF 9:00-10:15", "M/W/F", "9:00", "10:15"⟩,
   ⟨2, "s2", "TT 9:00-10:15", "T/TH", "9:00", "10:15"⟩,
   ⟨3, "s3", "MWF 10:30-11:45", "M/W/F", "10:30", "11:45"⟩,
   ⟨4, "s4", "TT 10:30-11:45", "T/TH", "10:30", "11:45"⟩,
   ⟨5, "s5", "MWF 12:00-1:15", "M/W/F", "12:00", "1:15"⟩,
   ⟨6, "s6", "TT 12:00-1:15", "T/TH", "12:00", "1:15"⟩,
   ⟨7, "s7", "MWF 1:30-2:45", "M/W/F", "1:30", "2:45"⟩,
   ⟨8, "s8", "TT 1:30-2:45", "T/TH", "1:30", "2:45"⟩,
   ⟨9, "s9", "MWF 3:00-4:15", "M/W/F", "3:00", "4:15"⟩,
   ⟨10, "s10", "TT 3:00-4:15", "T/TH", "3:00", "4:15"⟩]

/-- `self.slots`: the list of slot codes. -/
def slots : List String := slot_times.map (·.code)

/-- `self.mwf_set`: codes of the M/W/F slots. -/
def mwf_set : List String :=
  (slot_times.filter fun i => i.days == "M/W/F").map (·.code)

/-- `self.tt_set`: codes of the T/TH slots. -/
def tt_set : List String :=
  (slot_times.filter fun i => i.days == "T/TH").map (·.code)

/-- `self.mwf_slots`: zero-based indices of the M/W/F slots. -/
def mwf_slots : List ℕ :=
  (slot_times.filter fun i => i.days == "M/W/F").map (fun i => i.num - 1)

/-- `self.tt_slots`: zero-based indices of the T/TH slots. -/
def tt_slots : List ℕ :=
  (slot_times.filter fun i => i.days == "T/TH").map (fun i => i.num - 1)

/-- `self.fas_slot`: the designated exclusion slot (index 9, the TT 3:00 pm
slot). -/
def fas_slot : List ℕ := [9]

/-- `self.t900`: indices of slots starting at 9:00. -/
def t900 : List ℕ :=
  (slot_times.filter fun i => i.startT == "9:00").map (fun i => i.num - 1)

/-- `self.t1030`: indices of slots starting at 10:30. -/
def t1030 : List ℕ :=
  (slot_times.filter fun i => i.startT == "10:30").map (fun i => i.num - 1)

/-- `self.t1200`: indices of slots starting at 12:00. -/
def t1200 : List ℕ :=
  (slot_times.filter fun i => i.startT == "12:00").map (fun i => i.num - 1)

/-- `self.t130`: indices of slots starting at 1:30. -/
def t130 : List ℕ :=
  (slot_times.filter fun i => i.startT == "1:30").map (fun i => i.num - 1)

/-- `self.t300`: indices of slots starting at 3:00. -/
def t300 : List ℕ :=
  (slot_times.filter fun i => i.startT == "3:00").map (fun i => i.num - 1)

/-- `get_satisfaction(slot, preference, slot_popularity)`.  Slots are
indexed by `ℕ` (the popularity dict keyed by slot code becomes a function
on slot indices; the code looks slots up in catalog order).  The call
`randint(1, 10) / 10` is the `noise` argument; `noiseDraw` below describes
its support. -/
def get_satisfaction (slot : ℕ) (preference : ℕ) (slot_popularity : ℕ → ℚ)
    (noise : ℚ) : ℚ :=
  if preference = 0 then 0
  else max ((5 - (preference : ℚ)) - slot_popularity slot + noise) 0

/-- Value of `randint(1, 10) / 10` when the underlying draw is `k`. -/
def noiseDraw (k : ℕ) : ℚ := (k : ℚ) / 10

/-- The objective terms of the Kemeny ILP in `rankaggr_lp`: for every
voter and every ordered pair `(i, j)` of distinct candidates both ranked
positive by that voter, the variable representing the reverse of the
voter's stated order.  A pair `(a, b)` in the list stands for one
occurrence of `x[a, b]` in the minimized sum (as in the source, each
disagreeing unordered pair appears twice, once from `(i, j)` and once from
`(j, i)`). -/
def objPairs (nV nC : ℕ) (ranks : ℕ → ℕ → ℕ) : List (ℕ × ℕ) :=
  (List.range nV).flatMap fun v =>
    (List.range nC).flatMap fun i =>
      (List.range nC).filterMap fun j =>
        if i ≠ j ∧ 0 < ranks v i ∧ 0 < ranks v j then
          if ranks v i < ranks v j then some (j, i)
          else if ranks v j < ranks v i then some (i, j)
          else none
        else none

/-- Mean of the positive ranks in column `j`, defaulting to `2.5`; the
fallback branch of `rankaggr_lp`. -/
def colAvgRank (nV : ℕ) (ranks : ℕ → ℕ → ℕ) (j : ℕ) : ℚ :=
  let vs := (List.range nV).filterMap fun v =>
    if 0 < ranks v j then some (ranks v j) else none
  if vs.length = 0 then 5 / 2
  else (vs.map fun r => (r : ℚ)).sum / (vs.length : ℚ)

/-- `rankaggr_lp(ranks)` for a matrix of shape `(nV, nC)` given as
`ranks voter candidate`.  Mirrors the source: degenerate shapes return
`(inf, zeros)`; an empty objective returns `(0, ones)` before the backend
is ever invoked; an `OPTIMAL` status yields the objective value at the
returned solution together with, for each candidate `j`, the number of
candidates `i ≠ j` whose precedence variable `x[i, j]` is set; any other
status triggers the average-rank fallback with score `inf`. -/
def rankaggr_lp (nV nC : ℕ) (ranks : ℕ → ℕ → ℕ) (orc : KemenyOracle) :
    WithTop ℚ × List ℚ :=
  if nV = 0 ∨ nC = 0 then ((⊤ : WithTop ℚ), List.replicate nC 0)
  else
    let terms := objPairs nV nC ranks
    if terms.isEmpty then ((0 : WithTop ℚ), List.replicate nC 1)
    else if orc.status = SolveStatus.OPTIMAL then
      let scores := (List.range nC).map fun j =>
        ((((List.range nC).filter fun i => decide (i ≠ j) && orc.sol i j).length : ℕ) : ℚ)
      let objVal : ℚ := (terms.map fun p => if orc.sol p.1 p.2 then (1 : ℚ) else 0).sum
      (((objVal : ℚ) : WithTop ℚ), scores)
    else
      ((⊤ : WithTop ℚ), (List.range nC).map (colAvgRank nV ranks))

/-- A preference table (`data` in `get_slots_popularity`,
`selection_data` in `optimize_schedule`): `entry course slot` is the
integer rank course `course` gave slot `slot`, `0` meaning unranked. -/
structure PrefTable where
  nCourses : ℕ
  nSlots : ℕ
  entry : ℕ → ℕ → ℕ

/-- Indices of the rows kept by `ranks[~np.all(ranks == 0, axis=1)]`:
rows with at least one non-zero rank. -/
def validRows (t : PrefTable) : List ℕ :=
  (List.range t.nCourses).filter fun c =>
    (List.range t.nSlots).any fun s => decide (0 < t.entry c s)

/-- `get_slots_popularity(data)`.  The popularity map is keyed by slot
index (the source keys the dict by the column labels, in column order).
Faithfully to the source, the surviving rows are passed TRANSPOSED to
`rankaggr_lp` (`self.rankaggr_lp(valid_ranks.T)`), so in that call the
voters are the slots and the candidates are the surviving course rows.
The rescaling loop indexes `consensus_ranks[i]` for every slot index `i`
although the array has one entry per surviving course; when the table has
more slots than surviving courses (and the scores are not all equal) this
raises `IndexError`, modelled as `none`. -/
def get_slots_popularity (t : PrefTable) (orc : KemenyOracle) :
    Option ((ℕ → ℚ) × WithTop ℚ) :=
  let valid := validRows t
  if valid.isEmpty then some (fun _ => 1 / 2, (0 : WithTop ℚ))
  else
    let nV := t.nSlots
    let nC := valid.length
    let ranksT : ℕ → ℕ → ℕ := fun v i => t.entry (valid.getD i 0) v
    let res := rankaggr_lp nV nC ranksT orc
    let score := res.1
    let cr := res.2
    let maxR := cr.foldl max (cr.headD 0)
    let minR := cr.foldl min (cr.headD 0)
    if maxR = minR then some (fun _ => 1 / 2, score)
    else if t.nSlots ≤ cr.length then
      some (fun i => (maxR - cr.getD i 0) / (maxR - minR), score)
    else none

/-- The three input tables of `optimize_schedule`.  `labels` is
`selection_data.index` (so `labels.length` is the course count), `sel`
is the selection table (`sel course slot`, matching `PrefTable.entry`),
`courseFac` is the rows of `course_data` as (course, faculty) pairs, and
`faculty` is the rows of `faculty_data` as (name, voting flag) pairs —
`none` models `faculty_data is None` or a table without a `Voting`
column. -/
structure SchedInput where
  labels : List String
  sel : ℕ → ℕ → ℕ
  courseFac : List (String × String)
  faculty : Option (List (String × ℤ))

/-- `num_courses = selection_data.shape[0]`. -/
def numCourses (inp : SchedInput) : ℕ := inp.labels.length

/-- `course_data.loc[course, 'Faculty']` guarded by
`course in course_data.index`: first matching row. -/
def lookupFac (m : List (String × String)) (c : String) : Option String :=
  (m.find? fun p => p.1 == c).map Prod.snd

/-- The `voting_courses` list built in `optimize_schedule`: positions (via
`course_labels.index`) of the courses whose faculty has a positive
`Voting` flag; empty when no faculty table is supplied. -/
def votingCourses (inp : SchedInput) : List ℕ :=
  match inp.faculty with
  | none => []
  | some fac =>
    let vnames := (fac.filter fun p => decide (0 < p.2)).map Prod.fst
    (inp.labels.filter fun course =>
      match lookupFac inp.courseFac course with
      | some f => vnames.contains f
      | none => false).map fun course => inp.labels.indexOf course

/-- `set_min = math.ceil(num_courses / 2) - 1`; for naturals
`math.ceil(C / 2) = (C + 1) / 2`.  The value is `-1` when `C = 0`, hence
`ℤ`. -/
def set_min (C : ℕ) : ℤ := (((C + 1) / 2 : ℕ) : ℤ) - 1

/-- `stime_min = int(num_courses / num_stimes)` with `num_stimes = 5`. -/
def stime_min (C : ℕ) : ℕ := C / 5

/-- `stime_max = stime_min + 2`. -/
def stime_max (C : ℕ) : ℕ := C / 5 + 2

/-- Number of true assignment variables `x[i, j]` with slot `i` in group
`g` and course `j < C`. -/
def groupCount (g : List ℕ) (C : ℕ) (sol : ℕ → ℕ → Bool) : ℕ :=
  (g.map fun i => ((List.range C).filter fun j => sol i j).length).sum

/-- The constraints of the assignment MIP that are added unconditionally:
one slot per course, the two day-pattern floors, and the five start-time
bands. -/
def assignFeasibleBase (C : ℕ) (sol : ℕ → ℕ → Bool) : Bool :=
  ((List.range C).all fun j =>
      ((List.range 10).filter fun i => sol i j).length == 1)
    && decide (set_min C ≤ (groupCount mwf_slots C sol : ℤ))
    && decide (set_min C ≤ (groupCount tt_slots C sol : ℤ))
    && ([t900, t1030, t1200, t130, t300].all fun g =>
          decide (stime_min C ≤ groupCount g C sol)
            && decide (groupCount g C sol ≤ stime_max C))

/-- Value of the left-hand side of the exclusion constraint: the number of
true variables `x[i, j]` with `i` in `fas_slot` and `j` a voting course. -/
def exclusionCount (inp : SchedInput) (sol : ℕ → ℕ → Bool) : ℕ :=
  (fas_slot.map fun i =>
    ((votingCourses inp).filter fun j => sol i j).length).sum

/-- Full constraint set of the assignment MIP.  The exclusion constraint
is added only when `voting_courses` is non-empty (`if voting_courses:`). -/
def assignFeasible (inp : SchedInput) (sol : ℕ → ℕ → Bool) : Bool :=
  assignFeasibleBase (numCourses inp) sol
    && ((votingCourses inp).isEmpty || exclusionCount inp sol == 0)

/-- One entry of the `results` list: the dict
`{'Course', 'Slot', 'Time', 'Satisfaction'}` plus the loop indices
`(i, j)` it was built from. -/
structure SchedEntry where
  course : String
  slotCode : String
  time : String
  satisfaction : ℚ
  slotIdx : ℕ
  courseIdx : ℕ

/-- Substring test: Python `sub in s`. -/
def strContains (s sub : String) : Bool := decide (2 ≤ (s.splitOn sub).length)

/-- The summary-statistics record of `calculate_stats`. -/
structure SchedStats where
  mwf_count : ℕ
  tt_count : ℕ
  time_counts : List (String × ℕ)
  slot_counts : List ℕ
  balance_diff : ℕ
  time_diff : ℕ

/-- `calculate_stats(results, output, num_courses, num_slots)`. -/
def calculate_stats (results : List SchedEntry) (output : ℕ → ℕ → Bool)
    (C nSlots : ℕ) : SchedStats :=
  let mwf_count := (results.filter fun r => mwf_set.contains r.slotCode).length
  let tt_count := (results.filter fun r => tt_set.contains r.slotCode).length
  let tcs := ["9:00", "10:30", "12:00", "1:30", "3:00"].map fun tkey =>
    (tkey, (results.filter fun r => strContains r.time tkey).length)
  let counts := tcs.map Prod.snd
  { mwf_count := mwf_count
    tt_count := tt_count
    time_counts := tcs
    slot_counts := (List.range nSlots).map fun i =>
      ((List.range C).filter fun j => output j i).length
    balance_diff := ((mwf_count : ℤ) - (tt_count : ℤ)).natAbs
    time_diff := counts.foldl max 0 - counts.foldl min (counts.headD 0) }

/-- The result record returned on success (the `solve_time` field, wall
clock of the backend, is not modelled). -/
structure SchedResult where
  results : List SchedEntry
  stats : SchedStats
  outputMatrix : ℕ → ℕ → Bool
  satisfaction_total : ℚ
  slot_popularity : ℕ → ℚ
  kemeny_score : WithTop ℚ

/-- Outcome of `optimize_schedule`: an uncaught exception, the failure
tuple `(None, 'Optimization failed')`, or the success tuple
`(record, None)`. -/
inductive OptOutcome where
  | crash : OptOutcome
  | failed : String → OptOutcome
  | ok : SchedResult → OptOutcome

/-- The entry dict built for a true variable `x[i, j]`:
`{'Course': course_labels[j], 'Slot': self.slot_times[i][1],
'Time': self.slot_times[i][2], 'Satisfaction': satisfaction_matrix[i][j]}`. -/
def mkEntry (labels : List String) (m : ℕ → ℕ → ℚ) (i j : ℕ) : SchedEntry :=
  { course := labels.getD j ""
    slotCode := (slot_times.getD i ⟨0, "", "", "", "", ""⟩).code
    time := (slot_times.getD i ⟨0, "", "", "", "", ""⟩).label
    satisfaction := m i j
    slotIdx := i
    courseIdx := j }

/-- The extraction loop over `x[i, j].solution_value() > 0`: slot index
outer, course index inner. -/
def resultsList (labels : List String) (m : ℕ → ℕ → ℚ) (sol : ℕ → ℕ → Bool)
    (C : ℕ) : List SchedEntry :=
  (List.range 10).flatMap fun i =>
    (List.range C).filterMap fun j =>
      if sol i j then some (mkEntry labels m i j) else none

/-- The `output` matrix (`output[j, i] = 1` for every true variable with
`i < num_slots`, `j < num_courses`). -/
def outputOf (C : ℕ) (sol : ℕ → ℕ → Bool) : ℕ → ℕ → Bool :=
  fun j i => decide (j < C) && decide (i < 10) && sol i j

/-- `solver.Objective().Value()`: the maximized sum evaluated at the
returned solution. -/
def objValue (C : ℕ) (m : ℕ → ℕ → ℚ) (sol : ℕ → ℕ → Bool) : ℚ :=
  ((List.range 10).map fun i =>
    ((List.range C).map fun j => if sol i j then m i j else 0).sum).sum

/-- The satisfaction matrix built in `optimize_schedule`:
`satisfaction_matrix[s][j] = get_satisfaction(slots[s], old_row[j], pop)`
with `noise s j` the draw made for that call. -/
def satMatrixOf (inp : SchedInput) (pop : ℕ → ℚ) (noise : ℕ → ℕ → ℚ) :
    ℕ → ℕ → ℚ :=
  fun s j => get_satisfaction s (inp.sel j s) pop (noise s j)

/-- The selection table as passed to `get_slots_popularity`; the slot
catalog is fixed at ten columns. -/
def prefTableOf (inp : SchedInput) : PrefTable :=
  ⟨numCourses inp, 10, inp.sel⟩

/-- The record assembled on the success path of `optimize_schedule`. -/
def buildResult (inp : SchedInput) (noise : ℕ → ℕ → ℚ) (sol : ℕ → ℕ → Bool)
    (pop : ℕ → ℚ) (kscore : WithTop ℚ) : SchedResult :=
  let C := numCourses inp
  let m := satMatrixOf inp pop noise
  let res := resultsList inp.labels m sol C
  let output := outputOf C sol
  { results := res
    stats := calculate_stats res output C 10
    outputMatrix := output
    satisfaction_total := objValue C m sol
    slot_popularity := pop
    kemeny_score := kscore }

/-- `optimize_schedule(selection_data, course_data, faculty_data)`.  The
assignment MIP backend is the oracle pair `(status, sol)`; `status` is
compared against `OPTIMAL` exactly as in the source, and the extraction
loop reads `sol`.  Theorems about the success path additionally assume the
backend contract: an `OPTIMAL` solution satisfies the constraints that
were added (`assignFeasible`). -/
def optimize_schedule (inp : SchedInput) (orc : KemenyOracle)
    (noise : ℕ → ℕ → ℚ) (status : SolveStatus) (sol : ℕ → ℕ → Bool) :
    OptOutcome :=
  match get_slots_popularity (prefTableOf inp) orc with
  | none => OptOutcome.crash
  | some (pop, kscore) =>
    if status = SolveStatus.OPTIMAL then
      OptOutcome.ok (buildResult inp noise sol pop kscore)
    else OptOutcome.failed "Optimization failed"

/-- Control in `optimize_schedule` reaches `solver.Solve()` iff no
exception was raised earlier; the only fallible earlier step is the
popularity computation. -/
def reachesSolve (inp : SchedInput) (orc : KemenyOracle) : Bool :=
  (get_slots_popularity (prefTableOf inp) orc).isSome

/-- The satisfaction matrix of a run, recovered from the inputs (equal to
the matrix used by `optimize_schedule` whenever the popularity step
succeeded). -/
def satisfactionMatrix (inp : SchedInput) (orc : KemenyOracle)
    (noise : ℕ → ℕ → ℚ) : ℕ → ℕ → ℚ :=
  satMatrixOf inp
    (((get_slots_popularity (prefTableOf inp) orc).getD (fun _ => 0, 0)).1)
    noise

/-- An arbitrary Kemeny oracle, for evaluating code paths that never
consult the backend. -/
def dummyOracle : KemenyOracle := ⟨SolveStatus.OPTIMAL, fun _ _ => false⟩

/-- Failing input for C1: two courses, two slots, both courses ranking
slot 0 first (rank 1) and slot 1 second (rank 2). -/
def prefT_c1 : PrefTable := ⟨2, 2, fun _ s => if s = 0 then 1 else 2⟩

/-- All-zero preference table (one course, two slots) for C8. -/
def prefT_c8 : PrefTable := ⟨1, 2, fun _ _ => 0⟩

/-- Concrete witness input: two courses A and B over the ten-slot catalog,
every rank 1, A taught by voting faculty F1, B by non-voting F2. -/
def inpW : SchedInput :=
  { labels := ["A", "B"]
    sel := fun _ _ => 1
    courseFac := [("A", "F1"), ("B", "F2")]
    faculty := some [("F1", 1), ("F2", 0)] }

/-- Concrete witness solution: course 0 in slot 0, course 1 in slot 1. -/
def solW : ℕ → ℕ → Bool :=
  fun i j => (i == 0 && j == 0) || (i == 1 && j == 1)

/-- Concrete witness noise: every draw is 1, i.e. noise 1/10. -/
def noiseW : ℕ → ℕ → ℚ := fun _ _ => noiseDraw 1

/-- Zero-course input for C9. -/
def inpEmpty : SchedInput :=
  { labels := [], sel := fun _ _ => 0, courseFac := [], faculty := none }

/-- C2: for every slot, every popularity map and every noise draw,
`get_satisfaction` returns exactly 0 when the preference rank for the slot
is 0; an unranked (course, slot) pair never receives positive
satisfaction. -/
theorem unranked_satisfaction_zero (slot : ℕ) (pop : ℕ → ℚ) (noise : ℚ) :
    get_satisfaction slot 0 pop noise = 0 := rfl

/-- C7: for a positive preference rank and any popularity value,
`get_satisfaction` with the draw `randint(1, 10) / 10` equals
`max(0, (5 - rank) - popularity + noise)`, the result is non-negative,
and the noise lies in the fixed range `(0, 1]`. -/
theorem ranked_satisfaction_formula (slot preference k : ℕ) (pop : ℕ → ℚ)
    (hp : 0 < preference) (hk1 : 1 ≤ k) (hk2 : k ≤ 10) :
    get_satisfaction slot preference pop (noiseDraw k)
        = max 0 ((5 - (preference : ℚ)) - pop slot + noiseDraw k)
      ∧ 0 ≤ get_satisfaction slot preference pop (noiseDraw k)
      ∧ 0 < noiseDraw k ∧ noiseDraw k ≤ 1 := by
  have hne : preference ≠ 0 := Nat.pos_iff_ne_zero.mp hp
  have hkq : (0 : ℚ) < (k : ℚ) := by exact_mod_cast hk1
  unfold get_satisfaction
  rw [if_neg hne]
  refine ⟨max_comm _ _, le_max_right _ _, ?_, ?_⟩
  · exact div_pos hkq (by norm_num)
  · unfold noiseDraw
    rw [div_le_one (by norm_num : (0 : ℚ) < 10)]
    exact_mod_cast hk2

/-- Witness for C7 at slot 0, rank 1, uniform popularity 1/2, draw 1. -/
theorem ranked_satisfaction_formula_witness :
    get_satisfaction 0 1 (fun _ => 1 / 2) (noiseDraw 1)
        = max 0 ((5 - ((1 : ℕ) : ℚ)) - (1 : ℚ) / 2 + noiseDraw 1)
      ∧ 0 ≤ get_satisfaction 0 1 (fun _ => 1 / 2) (noiseDraw 1)
      ∧ 0 < noiseDraw 1 ∧ noiseDraw 1 ≤ 1 :=
  ranked_satisfaction_formula 0 1 1 (fun _ => 1 / 2) (by decide) (by decide)
    (by decide)

/-- C1 (divergence evidence): on the table where both courses rank slot 0
first and slot 1 second, the claimed consensus aggregation (courses as
voters, slots as candidates) yields popularity 1 for slot 0 and 0 for
slot 1, but the code — which hands `rankaggr_lp` the TRANSPOSED matrix, so
every "voter" (a slot) sees equal course ranks and the objective is empty —
returns uniform popularity 1/2 for both slots with score 0, for every
backend oracle. -/
theorem transposed_popularity_eval (orc : KemenyOracle) :
    (get_slots_popularity prefT_c1 orc).map (fun p => (p.1 0, p.1 1, p.2)) =
      some ((1 : ℚ) / 2, (1 : ℚ) / 2, (0 : WithTop ℚ)) := rfl

/-- C8 counterexample: on an all-zero preference table the code returns
disagreement score 0, not the infinite score the claim asserts. -/
theorem all_zero_score_not_infinite :
    (get_slots_popularity prefT_c8 dummyOracle).map Prod.snd =
        some ((0 : WithTop ℚ))
      ∧ (0 : WithTop ℚ) ≠ ⊤ :=
  ⟨rfl, by decide⟩

/-- C8 (amended): for every preference table in which every row is
entirely zero, `get_slots_popularity` returns uniform popularity 1/2 for
every slot together with a ZERO disagreement score, and never raises an
exception. -/
theorem all_zero_rows_uniform_popularity (t : PrefTable) (orc : KemenyOracle)
    (hz : ∀ c < t.nCourses, ∀ s < t.nSlots, t.entry c s = 0) :
    get_slots_popularity t orc = some (fun _ => 1 / 2, (0 : WithTop ℚ)) := by
  have hv : validRows t = [] := by
    unfold validRows
    rw [List.filter_eq_nil_iff]
    intro c hc
    simp only [List.any_eq_true, List.mem_range, decide_eq_true_eq, not_exists]
    intro s hs
    have := hz c (List.mem_range.mp hc) s hs.1
    omega
  have hemp : (validRows t).isEmpty = true := by rw [hv]; rfl
  simp [get_slots_popularity, hemp]

/-- Witness for the amended C8 at the concrete all-zero table. -/
theorem all_zero_rows_uniform_popularity_witness :
    get_slots_popularity prefT_c8 dummyOracle =
      some (fun _ => 1 / 2, (0 : WithTop ℚ)) :=
  all_zero_rows_uniform_popularity prefT_c8 dummyOracle (by decide)

/-- Inversion of the success path of `optimize_schedule`: a result record
is produced only when the popularity step succeeded and the backend
reported `OPTIMAL`, and the record is then `buildResult`. -/
theorem optimize_schedule_ok_inv (inp : SchedInput) (orc : KemenyOracle)
    (noise : ℕ → ℕ → ℚ) (status : SolveStatus) (sol : ℕ → ℕ → Bool)
    (r : SchedResult)
    (h : optimize_schedule inp orc noise status sol = OptOutcome.ok r) :
    status = SolveStatus.OPTIMAL ∧
      ∃ pop kscore,
        get_slots_popularity (prefTableOf inp) orc = some (pop, kscore) ∧
          r = buildResult inp noise sol pop kscore := by
  cases hp : get_slots_popularity (prefTableOf inp) orc with
  | none =>
    simp only [optimize_schedule, hp] at h
    exact OptOutcome.noConfusion h
  | some pk =>
    obtain ⟨pop, kscore⟩ := pk
    by_cases hst : status = SolveStatus.OPTIMAL
    · simp only [optimize_schedule, hp, hst, if_true] at h
      injection h with h
      exact ⟨hst, pop, kscore, rfl, h.symm⟩
    · simp only [optimize_schedule, hp, if_neg hst] at h
      exact OptOutcome.noConfusion h

/-- An `OPTIMAL` assignment solution satisfies the unconditional
constraints. -/
theorem assignFeasible_base (inp : SchedInput) (sol : ℕ → ℕ → Bool)
    (h : assignFeasible inp sol = true) :
    assignFeasibleBase (numCourses inp) sol = true := by
  unfold assignFeasible at h
  rw [Bool.and_eq_true] at h
  exact h.1

/-- When the voting-course list is non-empty, a feasible solution makes
the exclusion sum zero. -/
theorem assignFeasible_exclusion (inp : SchedInput) (sol : ℕ → ℕ → Bool)
    (h : assignFeasible inp sol = true) (hv : votingCourses inp ≠ []) :
    exclusionCount inp sol = 0 := by
  unfold assignFeasible at h
  rw [Bool.and_eq_true] at h
  have h2 := h.2
  rw [Bool.or_eq_true] at h2
  cases h2 with
  | inl he => exact absurd (List.isEmpty_iff.mp he) hv
  | inr he => exact beq_iff_eq.mp he

/-- Ceiling of a natural number halved: `math.ceil(C / 2) = (C + 1) / 2`. -/
theorem ceil_half_nat (C : ℕ) :
    (⌈((C : ℚ)) / 2⌉ : ℤ) = (((C + 1) / 2 : ℕ) : ℤ) := by
  have h1 : 2 * ((C + 1) / 2) ≤ C + 1 := by omega
  have h2 : C ≤ 2 * ((C + 1) / 2) := by omega
  have k1 : (2 : ℚ) * (((C + 1) / 2 : ℕ) : ℚ) ≤ (C : ℚ) + 1 := by
    exact_mod_cast h1
  have k2 : (C : ℚ) ≤ 2 * (((C + 1) / 2 : ℕ) : ℚ) := by exact_mod_cast h2
  rw [Int.ceil_eq_iff]
  constructor
  · have key : (((C + 1) / 2 : ℕ) : ℚ) - 1 < (C : ℚ) / 2 := by linarith
    exact_mod_cast key
  · have key : (C : ℚ) / 2 ≤ (((C + 1) / 2 : ℕ) : ℚ) := by linarith
    exact_mod_cast key

/-- C3: on every successful run, if at least one course is taught by a
voting-eligible faculty member then no voting course sits in the exclusion
slot (index 9), both in the backend solution and in the returned output
matrix; and when no voting course exists, the constraint set degenerates
to the base constraints, leaving the exclusion slot unrestricted. -/
theorem exclusion_slot_protected (inp : SchedInput) (orc : KemenyOracle)
    (noise : ℕ → ℕ → ℚ) (status : SolveStatus) (sol : ℕ → ℕ → Bool)
    (r : SchedResult)
    (hcontract : status = SolveStatus.OPTIMAL → assignFeasible inp sol = true)
    (hok : optimize_schedule inp orc noise status sol = OptOutcome.ok r) :
    (votingCourses inp ≠ [] →
        ∀ j ∈ votingCourses inp, sol 9 j = false ∧ r.outputMatrix j 9 = false)
      ∧ (votingCourses inp = [] →
          assignFeasible inp sol = assignFeasibleBase (numCourses inp) sol) := by
  obtain ⟨hst, pop, ks, hp, hr⟩ :=
    optimize_schedule_ok_inv inp orc noise status sol r hok
  have hfeas := hcontract hst
  constructor
  · intro hv j hj
    have hzero := assignFeasible_exclusion inp sol hfeas hv
    have hfil : ((votingCourses inp).filter fun j => sol 9 j).length = 0 := by
      unfold exclusionCount fas_slot at hzero
      simpa using hzero
    have hnil := List.length_eq_zero.mp hfil
    have hsol : sol 9 j = false := by
      cases hs : sol 9 j with
      | false => rfl
      | true =>
        have hmem : j ∈ (votingCourses inp).filter fun j => sol 9 j :=
          List.mem_filter.mpr ⟨hj, hs⟩
        rw [hnil] at hmem
        exact absurd hmem (List.not_mem_nil j)
    refine ⟨hsol, ?_⟩
    rw [hr]
    show outputOf (numCourses inp) sol j 9 = false
    simp [outputOf, hsol]
  · intro hv
    unfold assignFeasible
    rw [hv]
    simp

/-- C4: whenever the popularity step succeeded but the backend did not
certify optimality, `optimize_schedule` returns the explicit failure tuple
`(None, 'Optimization failed')`, and no result record is produced. -/
theorem failure_on_non_optimal (inp : SchedInput) (orc : KemenyOracle)
    (noise : ℕ → ℕ → ℚ) (status : SolveStatus) (sol : ℕ → ℕ → Bool)
    (hreach : reachesSolve inp orc = true)
    (hst : status ≠ SolveStatus.OPTIMAL) :
    optimize_schedule inp orc noise status sol =
        OptOutcome.failed "Optimization failed"
      ∧ ∀ r, optimize_schedule inp orc noise status sol ≠ OptOutcome.ok r := by
  unfold reachesSolve at hreach
  obtain ⟨⟨pop, ks⟩, hp⟩ := Option.isSome_iff_exists.mp hreach
  constructor
  · simp only [optimize_schedule, hp]
    rw [if_neg hst]
  · intro r h
    exact hst (optimize_schedule_ok_inv inp orc noise status sol r h).1

/-- C5: on every successful run, each of the two day-pattern groups
receives at least `⌈C / 2⌉ - 1` assignments. -/
theorem day_pattern_balance (inp : SchedInput) (orc : KemenyOracle)
    (noise : ℕ → ℕ → ℚ) (status : SolveStatus) (sol : ℕ → ℕ → Bool)
    (r : SchedResult)
    (hcontract : status = SolveStatus.OPTIMAL → assignFeasible inp sol = true)
    (hok : optimize_schedule inp orc noise status sol = OptOutcome.ok r) :
    ⌈((numCourses inp : ℚ)) / 2⌉ - 1 ≤
        (groupCount mwf_slots (numCourses inp) sol : ℤ)
      ∧ ⌈((numCourses inp : ℚ)) / 2⌉ - 1 ≤
        (groupCount tt_slots (numCourses inp) sol : ℤ) := by
  obtain ⟨hst, _, _, _, _⟩ :=
    optimize_schedule_ok_inv inp orc noise status sol r hok
  have hfeas := assignFeasible_base inp sol (hcontract hst)
  simp only [assignFeasibleBase, Bool.and_eq_true, decide_eq_true_eq] at hfeas
  rw [ceil_half_nat]
  exact ⟨hfeas.1.1.2, hfeas.1.2⟩

/-- C6: on every successful run, each of the five start-time groups
receives between `⌊C / 5⌋` and `⌊C / 5⌋ + 2` assignments. -/
theorem start_time_balance (inp : SchedInput) (orc : KemenyOracle)
    (noise : ℕ → ℕ → ℚ) (status : SolveStatus) (sol : ℕ → ℕ → Bool)
    (r : SchedResult)
    (hcontract : status = SolveStatus.OPTIMAL → assignFeasible inp sol = true)
    (hok : optimize_schedule inp orc noise status sol = OptOutcome.ok r) :
    ∀ g ∈ [t900, t1030, t1200, t130, t300],
      ⌊((numCourses inp : ℚ)) / 5⌋₊ ≤ groupCount g (numCourses inp) sol
        ∧ groupCount g (numCourses inp) sol ≤
            ⌊((numCourses inp : ℚ)) / 5⌋₊ + 2 := by
  obtain ⟨hst, _, _, _, _⟩ :=
    optimize_schedule_ok_inv inp orc noise status sol r hok
  have hfeas := assignFeasible_base inp sol (hcontract hst)
  simp only [assignFeasibleBase, Bool.and_eq_true, decide_eq_true_eq] at hfeas
  have hbands := hfeas.2
  rw [List.all_eq_true] at hbands
  intro g hg
  have hb := hbands g hg
  rw [Bool.and_eq_true, decide_eq_true_eq, decide_eq_true_eq] at hb
  have hfloor : ⌊((numCourses inp : ℚ)) / 5⌋₊ = numCourses inp / 5 := by
    rw [Nat.floor_div_ofNat, Nat.floor_natCast]
  rw [hfloor]
  exact ⟨hb.1, hb.2⟩

/-- C9 counterexample: with zero courses supplied, control still reaches
`solver.Solve()` — there is no zero-course early return in the source, so
the claimed "no solver invocation" is false. -/
theorem zero_courses_solver_reached :
    numCourses inpEmpty = 0 ∧ reachesSolve inpEmpty dummyOracle = true :=
  ⟨rfl, rfl⟩

/-- C9 (amended): with zero courses supplied the popularity step succeeds,
the assignment solver is still invoked on the trivial empty model, and —
when the backend certifies optimality — `optimize_schedule` returns a
well-defined empty result record (empty results list, zero total, no
error) rather than crashing or failing. -/
theorem zero_courses_empty_result (inp : SchedInput) (orc : KemenyOracle)
    (noise : ℕ → ℕ → ℚ) (status : SolveStatus) (sol : ℕ → ℕ → Bool)
    (h0 : inp.labels = []) (hst : status = SolveStatus.OPTIMAL) :
    reachesSolve inp orc = true
      ∧ ∃ r, optimize_schedule inp orc noise status sol = OptOutcome.ok r
          ∧ r.results = [] ∧ r.satisfaction_total = 0 := by
  obtain ⟨labels, sel, cf, fac⟩ := inp
  subst hst
  dsimp only at h0
  subst h0
  refine ⟨rfl, buildResult ⟨[], sel, cf, fac⟩ noise sol (fun _ => 1 / 2) 0,
    rfl, rfl, ?_⟩
  show objValue 0 (satMatrixOf ⟨[], sel, cf, fac⟩ (fun _ => 1 / 2) noise) sol = 0
  simp [objValue]

/-- Witness for the amended C9 at the concrete empty input. -/
theorem zero_courses_empty_result_witness :
    reachesSolve inpEmpty dummyOracle = true
      ∧ ∃ r, optimize_schedule inpEmpty dummyOracle noiseW SolveStatus.OPTIMAL
              solW = OptOutcome.ok r
          ∧ r.results = [] ∧ r.satisfaction_total = 0 :=
  zero_courses_empty_result inpEmpty dummyOracle noiseW SolveStatus.OPTIMAL
    solW rfl rfl

/-- Satisfaction sum over the entries extracted from one slot row. -/
theorem filterMap_entry_sum (labels : List String) (m : ℕ → ℕ → ℚ)
    (sol : ℕ → ℕ → Bool) (i : ℕ) (l : List ℕ) :
    (((l.filterMap fun j =>
        if sol i j then some (mkEntry labels m i j) else none).map
          fun e => e.satisfaction).sum)
      = (l.map fun j => if sol i j then m i j else 0).sum := by
  induction l with
  | nil => simp
  | cons a l ih =>
    cases h : sol i a with
    | true =>
      have hs : (mkEntry labels m i a).satisfaction = m i a := rfl
      simp [List.filterMap_cons, h, hs, ih]
    | false => simp [List.filterMap_cons, h, ih]

/-- Satisfaction sum over the entries extracted from a list of slot
rows. -/
theorem flatMap_entry_sum (labels : List String) (m : ℕ → ℕ → ℚ)
    (sol : ℕ → ℕ → Bool) (C : ℕ) (L : List ℕ) :
    (((L.flatMap fun i => (List.range C).filterMap fun j =>
        if sol i j then some (mkEntry labels m i j) else none).map
          fun e => e.satisfaction).sum)
      = (L.map fun i =>
          ((List.range C).map fun j => if sol i j then m i j else 0).sum).sum := by
  induction L with
  | nil => simp
  | cons i L ih =>
    rw [List.flatMap_cons, List.map_append, List.sum_append, ih,
      filterMap_entry_sum, List.map_cons, List.sum_cons]

/-- The satisfaction values of the extracted entries sum to the objective
value. -/
theorem resultsList_sat_sum (labels : List String) (m : ℕ → ℕ → ℚ)
    (sol : ℕ → ℕ → Bool) (C : ℕ) :
    ((resultsList labels m sol C).map fun e => e.satisfaction).sum
      = objValue C m sol :=
  flatMap_entry_sum labels m sol C (List.range 10)

/-- Every extracted entry carries the satisfaction-matrix value of its
(slot, course) pair. -/
theorem resultsList_mem_sat (labels : List String) (m : ℕ → ℕ → ℚ)
    (sol : ℕ → ℕ → Bool) (C : ℕ) (e : SchedEntry)
    (he : e ∈ resultsList labels m sol C) :
    e.satisfaction = m e.slotIdx e.courseIdx := by
  unfold resultsList at he
  rw [List.mem_flatMap] at he
  obtain ⟨i, hi, hin⟩ := he
  rw [List.mem_filterMap] at hin
  obtain ⟨j, hj, hsome⟩ := hin
  cases h : sol i j with
  | false =>
    rw [h] at hsome
    simp at hsome
  | true =>
    rw [h] at hsome
    simp at hsome
    subst hsome
    rfl

/-- C10: on every successful run, the `satisfaction_total` field equals
the sum of the `Satisfaction` values of the per-course result entries, and
each entry's `Satisfaction` equals the satisfaction-matrix value of its
assigned (slot, course) pair. -/
theorem satisfaction_accounting (inp : SchedInput) (orc : KemenyOracle)
    (noise : ℕ → ℕ → ℚ) (status : SolveStatus) (sol : ℕ → ℕ → Bool)
    (r : SchedResult)
    (hok : optimize_schedule inp orc noise status sol = OptOutcome.ok r) :
    r.satisfaction_total = (r.results.map fun e => e.satisfaction).sum
      ∧ ∀ e ∈ r.results,
          e.satisfaction = satisfactionMatrix inp orc noise e.slotIdx e.courseIdx := by
  obtain ⟨hst, pop, ks, hp, hr⟩ :=
    optimize_schedule_ok_inv inp orc noise status sol r hok
  have hm : satisfactionMatrix inp orc noise = satMatrixOf inp pop noise := by
    unfold satisfactionMatrix
    rw [hp]
    rfl
  subst hr
  constructor
  · exact (resultsList_sat_sum inp.labels (satMatrixOf inp pop noise) sol
      (numCourses inp)).symm
  · intro e he
    rw [hm]
    exact resultsList_mem_sat inp.labels (satMatrixOf inp pop noise) sol
      (numCourses inp) e he

/-- Witness for C10 at the concrete two-course input. -/
theorem satisfaction_accounting_witness :
    (buildResult inpW noiseW solW (fun _ => 1 / 2) 0).satisfaction_total
        = ((buildResult inpW noiseW solW (fun _ => 1 / 2) 0).results.map
            fun e => e.satisfaction).sum
      ∧ ∀ e ∈ (buildResult inpW noiseW solW (fun _ => 1 / 2) 0).results,
          e.satisfaction =
            satisfactionMatrix inpW dummyOracle noiseW e.slotIdx e.courseIdx :=
  satisfaction_accounting inpW dummyOracle noiseW SolveStatus.OPTIMAL solW
    (buildResult inpW noiseW solW (fun _ => 1 / 2) 0) rfl

/-- Witness for C3 at the concrete two-course input with one voting
course. -/
theorem exclusion_slot_protected_witness :
    (votingCourses inpW ≠ [] →
        ∀ j ∈ votingCourses inpW, solW 9 j = false
          ∧ (buildResult inpW noiseW solW (fun _ => 1 / 2) 0).outputMatrix j 9
              = false)
      ∧ (votingCourses inpW = [] →
          assignFeasible inpW solW = assignFeasibleBase (numCourses inpW) solW) :=
  exclusion_slot_protected inpW dummyOracle noiseW SolveStatus.OPTIMAL solW
    (buildResult inpW noiseW solW (fun _ => 1 / 2) 0) (fun _ => by decide) rfl

/-- Witness for C4 at the concrete two-course input with an infeasible
status. -/
theorem failure_on_non_optimal_witness :
    optimize_schedule inpW dummyOracle noiseW SolveStatus.INFEASIBLE solW =
        OptOutcome.failed "Optimization failed"
      ∧ ∀ r, optimize_schedule inpW dummyOracle noiseW SolveStatus.INFEASIBLE
          solW ≠ OptOutcome.ok r :=
  failure_on_non_optimal inpW dummyOracle noiseW SolveStatus.INFEASIBLE solW
    rfl (by decide)

/-- Witness for C5 at the concrete two-course input. -/
theorem day_pattern_balance_witness :
    ⌈((numCourses inpW : ℚ)) / 2⌉ - 1 ≤
        (groupCount mwf_slots (numCourses inpW) solW : ℤ)
      ∧ ⌈((numCourses inpW : ℚ)) / 2⌉ - 1 ≤
        (groupCount tt_slots (numCourses inpW) solW : ℤ) :=
  day_pattern_balance inpW dummyOracle noiseW SolveStatus.OPTIMAL solW
    (buildResult inpW noiseW solW (fun _ => 1 / 2) 0) (fun _ => by decide) rfl

/-- Witness for C6 at the concrete two-course input and the 9:00 group. -/
theorem start_time_balance_witness :
    ⌊((numCourses inpW : ℚ)) / 5⌋₊ ≤ groupCount t900 (numCourses inpW) solW
      ∧ groupCount t900 (numCourses inpW) solW ≤
          ⌊((numCourses inpW : ℚ)) / 5⌋₊ + 2 :=
  start_time_balance inpW dummyOracle noiseW SolveStatus.OPTIMAL solW
    (buildResult inpW noiseW solW (fun _ => 1 / 2) 0) (fun _ => by decide) rfl
    t900 (by simp)

end SchedulingOptimizer
